import Mathlib

/-!
Verification of the subsidy-grant-api core (src/api/utils.py, src/api/index.py,
src/api/rate_limiter.py) against its natural-language specification.

Python values flowing through the normalizer are modelled by the inductive
type `JVal`; Python floats and `time.time()` values are modelled with exact
arithmetic (`ℚ` respectively `ℤ`); code that can raise an exception is
modelled with `Option` (where `none` means the Python call raises).
-/

/-- Model of a Python/JSON value as it flows through the normalizer. -/
inductive JVal where
  | null
  | bool (b : Bool)
  | num (q : ℚ)
  | str (s : String)
  | arr (xs : List JVal)
  | obj (kvs : List (String × JVal))

/-- Python truthiness of a `JVal` (`None`, `0`, `""`, `[]`, `{}` are falsy). -/
def truthy : JVal → Bool
  | .null => false
  | .bool b => b
  | .num q => if q = 0 then false else true
  | .str s => if s = "" then false else true
  | .arr xs => !xs.isEmpty
  | .obj kvs => !kvs.isEmpty

/-- A raw item: a Python dict modelled as an association list (keys unique in
practice; lookup takes the first binding, as a dict would). -/
abbrev Item := List (String × JVal)

/-- `i.get(k)`: `some v` when the key is present, `none` when absent. -/
def getVal (i : Item) (k : String) : Option JVal :=
  (i.find? (fun p => p.1 == k)).map (fun p => p.2)

/-- The value of key `k` when it is present and truthy, else `none`.  This is
the building block of the `i.get(a) or i.get(b) or ...` chains in
`normalize_item` (src/api/utils.py lines 95-97): Python `or` skips a present
but falsy value. -/
def truthyGet (i : Item) (k : String) : Option JVal :=
  match getVal i k with
  | some v => if truthy v then some v else none
  | none => none

/-- `i.get(k) if i.get(k) is not None else None` (src/api/utils.py lines
99-104): absent and present-`None` both collapse to `none`. -/
def optField (i : Item) (k : String) : Option JVal :=
  match getVal i k with
  | some JVal.null => none
  | x => x

/-- Whether the character list `n` is a leading segment of `h`. -/
def matchesAt : List Char → List Char → Bool
  | [], _ => true
  | _ :: _, [] => false
  | n :: ns, c :: cs => n == c && matchesAt ns cs

/-- Python `n in h` substring test on character lists. -/
def hasSubstr (n : List Char) : List Char → Bool
  | [] => matchesAt n []
  | c :: cs => matchesAt n (c :: cs) || hasSubstr n cs

/-- Python `str.lower()` (ASCII case folding; the Japanese tokens the code
looks for are unaffected). -/
def pyLower (s : String) : String :=
  String.mk (s.toList.map Char.toLower)

/-- Python whitespace as recognised by `str.strip()` and `\s`. -/
def isPySpace (c : Char) : Bool :=
  c == ' ' || c == '\t' || c == '\n' || c == '\r' || c == Char.ofNat 11 || c == Char.ofNat 12

/-- Python `str.strip()` on a character list. -/
def pyStrip (cs : List Char) : List Char :=
  ((cs.dropWhile isPySpace).reverse.dropWhile isPySpace).reverse

/-- Value of a nonempty all-digit character run, else `none`. -/
def digitsToNat (cs : List Char) : Option ℕ :=
  if cs.isEmpty then none
  else if cs.all Char.isDigit then
    some (cs.foldl (fun a c => 10 * a + (c.toNat - 48)) 0)
  else none

/-- Split a character list at the dots, keeping empty segments. -/
def splitDot : List Char → List (List Char)
  | [] => [[]]
  | c :: rest =>
    if c = '.' then [] :: splitDot rest
    else
      match splitDot rest with
      | h :: t => (c :: h) :: t
      | [] => [[c]]

/-- Python `float(s)` on a string, modelled for plain decimal forms: optional
surrounding whitespace, an optional sign, digits with an optional single
decimal point (at least one digit overall).  Exotic accepted forms
(exponents, inf, nan, underscores) are not used by any claim and are treated
as unparsable. `none` means `float()` raises `ValueError`. -/
def parsePyFloat (s : String) : Option ℚ :=
  let cs := pyStrip s.toList
  let sgn : ℚ × List Char :=
    match cs with
    | c :: rest =>
      if c = '-' then (-1, rest)
      else if c = '+' then (1, rest)
      else (1, c :: rest)
    | [] => (1, [])
  match splitDot sgn.2 with
  | [ip] => (digitsToNat ip).map (fun n => sgn.1 * n)
  | [ip, fp] =>
    if ip.isEmpty && fp.isEmpty then none
    else
      let ipv : Option ℚ :=
        if ip.isEmpty then some 0 else (digitsToNat ip).map (fun n => (n : ℚ))
      let fpv : Option ℚ :=
        if fp.isEmpty then some 0
        else (digitsToNat fp).map (fun n => (n : ℚ) / 10 ^ fp.length)
      match ipv, fpv with
      | some a, some b => some (sgn.1 * (a + b))
      | _, _ => none
  | _ => none

/-- Python `float(v)` on a `JVal`; `none` means the call raises
(`TypeError` for `None`/list/dict, `ValueError` for an unparsable string). -/
def pyFloat : JVal → Option ℚ
  | .num q => some q
  | .bool b => some (if b then 1 else 0)
  | .str s => parsePyFloat s
  | _ => none

/-- The enumerated Japanese tag for a subsidy. -/
def subsidyTag : String := "補助金"

/-- The enumerated Japanese tag for a grant. -/
def grantTag : String := "助成金"

/-- A normalized record, the dict literal built by `normalize_item`
(src/api/utils.py lines 94-107).  Fields keep the `JVal` looseness of the
source: the alias chains can propagate values of any type. -/
structure Record where
  title : JVal
  summary : JVal
  source_url : JVal
  grant_type : JVal
  deadline : Option JVal
  amount_max : Option JVal
  rate_max : Option JVal
  area : Option JVal
  municipality : Option JVal
  industry : Option JVal
  confidence : ℚ
  reasons : JVal

/-- A default record, used only as the dummy value of `headD`/`getD`. -/
def rdefault : Record :=
  ⟨.str "", .str "", .str "", .str "", none, none, none, none, none, none, 0, .arr []⟩

/-- The `grant_type` computation of `normalize_item` (src/api/utils.py lines
84-92): keep a truthy raw tag, otherwise infer it from the lowercased title.
`none` models the `.lower()` call raising on a truthy non-string title. -/
def grantTypeOf (i : Item) : Option JVal :=
  match truthyGet i "grant_type" with
  | some v => some v
  | none =>
    match (truthyGet i "title").getD (JVal.str "") with
    | JVal.str s =>
      let t := (pyLower s).toList
      some (JVal.str
        (if hasSubstr subsidyTag.toList t then subsidyTag
         else if hasSubstr grantTag.toList t then grantTag
         else subsidyTag))
    | _ => none

/-- The `confidence` computation of `normalize_item` (src/api/utils.py line
105): `float(i.get("confidence", 0.0)) if i.get("confidence") is not None
else 0.0`.  `none` models the `float()` call raising. -/
def confOf (i : Item) : Option ℚ :=
  match getVal i "confidence" with
  | none => some 0
  | some JVal.null => some 0
  | some v => pyFloat v

/-- `normalize_item` (src/api/utils.py lines 82-108; identical inner function
in src/api/index.py lines 248-273).  `none` models the Python function
raising an uncaught exception. -/
def normalize_item (i : Item) : Option Record :=
  match grantTypeOf i, confOf i with
  | some g, some c =>
    some {
      title := (truthyGet i "title" <|> truthyGet i "name").getD (.str "")
      summary := (truthyGet i "summary" <|> truthyGet i "description").getD (.str "")
      source_url :=
        (truthyGet i "source_url" <|> truthyGet i "url" <|> truthyGet i "link").getD (.str "")
      grant_type := g
      deadline := optField i "deadline"
      amount_max := optField i "amount_max"
      rate_max := optField i "rate_max"
      area := optField i "area"
      municipality := optField i "municipality"
      industry := optField i "industry"
      confidence := c
      reasons := (truthyGet i "reasons").getD (.arr []) }
  | _, _ => none

/-- The list comprehension `[normalize_item(it) for it in items]`
(src/api/utils.py line 111): left to right, the first exception aborts the
whole pass. -/
def normalize_all : List Item → Option (List Record)
  | [] => some []
  | i :: rest =>
    match normalize_item i, normalize_all rest with
    | some r, some rs => some (r :: rs)
    | _, _ => none

/-- The confidence fallback of src/api/utils.py lines 120-126: a confidence
equal to `0.0` is replaced by `0.2`. -/
def confFallback (r : Record) : Record :=
  if r.confidence = 0 then { r with confidence := (0.2 : ℚ) } else r

/-- The truncation and filtering stage of `normalize_and_filter_items`
(src/api/utils.py lines 110-117): keep the first `top_k` normalized items,
then drop those with a falsy `source_url` — unless that would drop every
item, in which case the truncated list is kept unfiltered. -/
def keptAfterFilter (normalized : List Record) (top_k : ℕ) : List Record :=
  let truncated := normalized.take top_k
  let filtered := truncated.filter (fun r => truthy r.source_url)
  if filtered.isEmpty then truncated else filtered

/-- `normalize_and_filter_items` (src/api/utils.py lines 72-128): normalize
every item, truncate to the first `top_k`, drop items with a falsy
`source_url` unless that would drop everything, then apply the confidence
fallback.  `top_k` is a natural number (the API bounds it to `1 ≤ top_k ≤
20`, and Python `list[:k]` agrees with `List.take` for `k ≥ 0`).  `none`
models the Python function raising. -/
def normalize_and_filter_items (items : List Item) (top_k : ℕ) : Option (List Record) :=
  match normalize_all items with
  | none => none
  | some normalized => some ((keptAfterFilter normalized top_k).map confFallback)

/-! ## The balanced-span scanner and the JSON extractor
(src/api/utils.py `extract_json_from_text`, lines 7-69; the identical inner
function of src/api/index.py, lines 183-231). -/

/-- The bracket/quote characters, named to keep string literals simple. -/
def lbrace : Char := Char.ofNat 123

/-- Closing curly brace. -/
def rbrace : Char := Char.ofNat 125

/-- Opening square bracket. -/
def lbrack : Char := Char.ofNat 91

/-- Closing square bracket. -/
def rbrack : Char := Char.ofNat 93

/-- Double quote. -/
def dquote : Char := Char.ofNat 34

/-- Backslash. -/
def bslash : Char := Char.ofNat 92

/-- Backtick. -/
def btick : Char := Char.ofNat 96

/-- The loop state of the balanced-span scan (src/api/utils.py lines 39-41):
the stack of expected closers (top at the head), the inside-a-string flag and
the one-shot escape flag. -/
structure ScanSt where
  stack : List Char
  inStr : Bool
  esc : Bool

/-- One iteration of the scan loop body (src/api/utils.py lines 43-61) on one
character: the updated state, paired with `true` exactly when this character
popped the stack to empty, i.e. the span ends here. -/
def stepC (s : ScanSt) (c : Char) : ScanSt × Bool :=
  if s.inStr then
    (if s.esc then { s with esc := false }
     else if c = bslash then { s with esc := true }
     else if c = dquote then { s with inStr := false }
     else s, false)
  else if c = dquote then ({ s with inStr := true }, false)
  else if c = lbrace then ({ s with stack := rbrace :: s.stack }, false)
  else if c = lbrack then ({ s with stack := rbrack :: s.stack }, false)
  else
    match s.stack with
    | [] => (s, false)
    | top :: rest => if c = top then ({ s with stack := rest }, rest.isEmpty) else (s, false)

/-- Run the scan loop, accumulating the consumed characters in reverse;
returns the span (inclusive of the closing character) as soon as the stack
empties, and `none` when the text ends first (src/api/utils.py lines 42-69). -/
def scanFrom : ScanSt → List Char → List Char → Option (List Char)
  | _, _, [] => none
  | s, acc, c :: cs =>
    match stepC s c with
    | (s2, done) => if done then some ((c :: acc).reverse) else scanFrom s2 (c :: acc) cs

/-- The whole span extraction (src/api/utils.py lines 30-69): start at the
first opening brace or bracket and scan for the matching top-level closer. -/
def findSpan (t : List Char) : Option (List Char) :=
  match t.dropWhile (fun c => !(c == lbrace || c == lbrack)) with
  | [] => none
  | c :: cs => scanFrom ⟨[], false, false⟩ [] (c :: cs)

/-- Split a character list around the first occurrence of three consecutive
backticks: `some (before, after)` or `none` when there is no fence
delimiter. -/
def splitTriple : List Char → Option (List Char × List Char)
  | c1 :: c2 :: c3 :: rest =>
    if c1 = btick && c2 = btick && c3 = btick then some ([], rest)
    else (splitTriple (c2 :: c3 :: rest)).map (fun p => (c1 :: p.1, p.2))
  | _ => none

/-- Drop a case-insensitive `json` tag right after the opening fence, as the
`(?:json)?` group of the regex consumes it. -/
def dropJsonTag (cs : List Char) : List Char :=
  match cs with
  | c1 :: c2 :: c3 :: c4 :: rest =>
    if c1.toLower = 'j' && c2.toLower = 's' && c3.toLower = 'o' && c4.toLower = 'n' then rest
    else cs
  | _ => cs

/-- The fenced-block candidate produced by
`re.search(r"` three backticks `(?:json)?\s*(.*?)\s*` three backticks `", t, re.S | re.I)`
followed by `.strip()` (src/api/utils.py lines 21-23): the text between the
first fence delimiter (with an optional case-insensitive `json` tag consumed)
and the next fence delimiter, whitespace-stripped.  The lazy group together
with the two `\s*` and the final `.strip()` make the stripped between-fence
text exactly the candidate; if no closing delimiter exists anywhere the
search fails (a later starting position cannot match either, since any
closing delimiter is itself a fence delimiter occurrence). -/
def findFence (cs : List Char) : Option (List Char) :=
  match splitTriple cs with
  | none => none
  | some (_, rest) =>
    match splitTriple (dropJsonTag rest) with
    | some (content, _) => some (pyStrip content)
    | none => none

/-- `extract_json_from_text` (src/api/utils.py lines 7-69), parameterized by
the JSON decoder: `json.loads` is standard-library code, modelled as an
arbitrary function `decode` returning `none` where `json.loads` raises.  A
fence candidate that decodes wins; a fence candidate that fails to decode is
not fatal and control falls to the balanced-span scan over the full text;
the span candidate's decode failure yields `none`. -/
def extract_json_from_text (decode : String → Option JVal) (t : String) : Option JVal :=
  if t = "" then none
  else
    match (match findFence t.toList with
           | some c => decode (String.mk c)
           | none => none) with
    | some v => some v
    | none =>
      match findSpan t.toList with
      | some span => decode (String.mk span)
      | none => none

/-- The outcome-shaping tail of `call_openai` (src/api/index.py lines
233-245): a failed extraction raises `HTTPException(502, "Model did not
return valid JSON")`; a decoded dict with an `items` key yields that value; a
decoded bare list yields itself; anything else raises `HTTPException(502,
"Unexpected OpenAI response (no items)")`.  Errors are modelled as
`Except.error (status, detail)`. -/
def resolve_items (decode : String → Option JVal) (text : String) :
    Except (ℕ × String) JVal :=
  match extract_json_from_text decode text with
  | none => Except.error (502, "Model did not return valid JSON")
  | some (JVal.obj kvs) =>
    match getVal kvs "items" with
    | some v => Except.ok v
    | none => Except.error (502, "Unexpected OpenAI response (no items)")
  | some (JVal.arr l) => Except.ok (JVal.arr l)
  | some _ => Except.error (502, "Unexpected OpenAI response (no items)")

/-! ## The sliding-window rate limiter
(src/api/rate_limiter.py `SimpleSlidingWindow.allow`, lines 21-35).  Clock
readings are modelled with exact integer arithmetic; the deque is a list with
its left end at the head. -/

/-- `SimpleSlidingWindow.allow` as a pure state transformer: purge old
timestamps from the left end while they are at or before `now - window`,
then admit and append when strictly below capacity.  Returns
`((allowed, remaining), new_deque)`. -/
def allow (per_min : ℕ) (window : ℤ) (dq : List ℤ) (now : ℤ) : (Bool × ℕ) × List ℤ :=
  let cutoff := now - window
  let purged := dq.dropWhile (fun ts => decide (ts ≤ cutoff))
  if purged.length < per_min then
    ((true, per_min - (purged.length + 1)), purged ++ [now])
  else ((false, 0), purged)

/-- Follows the claim's words, not the source: identical to `allow` except
that the purge discards only timestamps strictly older than `now - window`,
as the claim's sentence "discards all recorded timestamps older than now −
window" reads. -/
def allowClaimStrict (per_min : ℕ) (window : ℤ) (dq : List ℤ) (now : ℤ) :
    (Bool × ℕ) × List ℤ :=
  let cutoff := now - window
  let purged := dq.dropWhile (fun ts => decide (ts < cutoff))
  if purged.length < per_min then
    ((true, per_min - (purged.length + 1)), purged ++ [now])
  else ((false, 0), purged)

/-- A batch of `allow` calls with window 60, one per caller, at the given
clock readings, threaded through the shared deque; returns the admission
flag of each call in order.  Because the entire purge-check-append sequence
of `allow` runs inside `with self.lock`, any interleaving of concurrent
callers is equivalent to some sequential order of their (pre-lock) clock
readings, which is what the list `ts` ranges over. -/
def runCalls (per_min : ℕ) (dq : List ℤ) : List ℤ → List Bool
  | [] => []
  | t :: r =>
    let res := allow per_min 60 dq t
    res.1.1 :: runCalls per_min res.2 r

/-! ## Spec-side definitions and concrete inputs used by the claims -/

/-- Follows the claim's words, not the source: the value of the first key in
`keys` whose value is present and truthy, with the empty string recorded when
there is none. -/
def firstTruthyAlias (i : Item) (keys : List String) : JVal :=
  (keys.findSome? (fun k => truthyGet i k)).getD (JVal.str "")

/-- A raw text that states, in prose, that nothing matching was found — one
of the "no matches" phrasings the spec's classifier section describes — and
contains no JSON candidate at all. -/
def noMatchText : String := "該当する補助金・助成金は見つかりませんでした。"

/-- A raw text that is just a bare URL, with no JSON candidate. -/
def urlOnlyText : String := "https://example.go.jp/hojokin"

/-- A concrete decoder standing in for `json.loads`: accepts exactly the
text `[1]`. -/
def dec8 : String → Option JVal :=
  fun s => if s = "[1]" then some (JVal.arr [JVal.num 1]) else none

/-- A text with a fenced block whose inner content is not JSON, followed by
a decodable bare array. -/
def t8 : String := "```json\nnope\n``` [1]"

/-- The five-item scenario of the spec's truncation-then-filter litmus:
items 1 and 2 lack `source_url`, items 3 to 5 have it. -/
def items5 : List Item :=
  [[("title", JVal.str "A")],
   [("title", JVal.str "B")],
   [("title", JVal.str "C"), ("source_url", JVal.str "uc")],
   [("title", JVal.str "D"), ("source_url", JVal.str "ud")],
   [("title", JVal.str "E"), ("source_url", JVal.str "ue")]]

/-- The normalization of `items5`. -/
def pre5 : List Record := (normalize_all items5).getD []

/-- The output of the normalizer on `items5` with `top_k = 2`. -/
def out5 : List Record := (normalize_and_filter_items items5 2).getD []

/-- The single record produced by normalizing a bare-title item. -/
def c6wrec : Record :=
  ((normalize_and_filter_items [[("title", JVal.str "W")]] 1).getD []).headD rdefault

/-- The record produced by `normalize_item` on an item carrying only `name`. -/
def c7wrec : Record := (normalize_item [("name", JVal.str "N")]).getD rdefault

/-! ## Helper lemmas -/

/-- A dropWhile whose test fails on every element is the identity. -/
theorem dropWhile_of_all_false {α : Type} (p : α → Bool) (l : List α)
    (h : ∀ a ∈ l, p a = false) : l.dropWhile p = l := by
  cases l with
  | nil => rfl
  | cons a t =>
    rw [List.dropWhile_cons, h a (List.mem_cons_self a t)]
    simp

/-- On a sorted deque, purging from the left while the head is at or before
the cutoff discards exactly the timestamps at or before the cutoff. -/
theorem dropWhile_le_eq_filter (dq : List ℤ) (cutoff : ℤ)
    (h : dq.Pairwise (fun a b => a ≤ b)) :
    dq.dropWhile (fun ts => decide (ts ≤ cutoff)) =
      dq.filter (fun ts => decide (cutoff < ts)) := by
  induction dq with
  | nil => rfl
  | cons a t ih =>
    rcases List.pairwise_cons.mp h with ⟨ha, ht⟩
    by_cases hc : a ≤ cutoff
    · have h1 : decide (a ≤ cutoff) = true := decide_eq_true hc
      have h2 : decide (cutoff < a) = false := decide_eq_false (not_lt.mpr hc)
      simp [List.dropWhile_cons, List.filter_cons, h1, h2]
      exact ih ht
    · have hlt : cutoff < a := lt_of_not_ge hc
      have h1 : decide (a ≤ cutoff) = false := decide_eq_false hc
      have h2 : decide (cutoff < a) = true := decide_eq_true hlt
      have h3 : t.filter (fun ts => decide (cutoff < ts)) = t :=
        List.filter_eq_self.mpr (fun b hb => by
          simpa using lt_of_lt_of_le hlt (ha b hb))
      simp [List.dropWhile_cons, List.filter_cons, h1, h2, h3]

/-- When every recorded timestamp is strictly inside the window, the purge is
a no-op and `allow` just checks the count. -/
theorem allow_no_purge (per_min : ℕ) (dq : List ℤ) (now : ℤ)
    (h : ∀ d ∈ dq, now - 60 < d) :
    allow per_min 60 dq now =
      if dq.length < per_min then ((true, per_min - (dq.length + 1)), dq ++ [now])
      else ((false, 0), dq) := by
  have hp : dq.dropWhile (fun ts => decide (ts ≤ now - 60)) = dq :=
    dropWhile_of_all_false _ _ (fun d hd => by simpa using h d hd)
  simp [allow, hp]

/-- Every call appends one flag: the batch produces one flag per caller. -/
theorem runCalls_length (per_min : ℕ) :
    ∀ (ts : List ℤ) (dq : List ℤ), (runCalls per_min dq ts).length = ts.length := by
  intro ts
  induction ts with
  | nil => intro dq; rfl
  | cons t r ih => intro dq; simp [runCalls, ih]

/-- A list of flags splits into its admissions and its rejections. -/
theorem count_true_add_count_false (bs : List Bool) :
    bs.count true + bs.count false = bs.length := by
  induction bs with
  | nil => rfl
  | cons b t ih => cases b <;> simp [List.count_cons, ih] <;> omega

/-- The admission count of a batch of in-window calls: starting from a deque
whose timestamps are all strictly inside every caller's window, the number of
admissions is the remaining capacity, capped by the number of calls. -/
theorem runCalls_count (per_min : ℕ) :
    ∀ (ts : List ℤ) (dq : List ℤ),
      (∀ t ∈ ts, ∀ d ∈ dq, t - 60 < d) →
      (∀ a ∈ ts, ∀ b ∈ ts, a - 60 < b) →
      (runCalls per_min dq ts).count true = min ts.length (per_min - dq.length) := by
  intro ts
  induction ts with
  | nil => intro dq _ _; simp [runCalls]
  | cons t r ih =>
    intro dq h1 h2
    have hstep := allow_no_purge per_min dq t (h1 t (List.mem_cons_self t r))
    have hrun : runCalls per_min dq (t :: r) =
        (allow per_min 60 dq t).1.1 :: runCalls per_min (allow per_min 60 dq t).2 r := rfl
    by_cases hlt : dq.length < per_min
    · rw [if_pos hlt] at hstep
      have h1' : ∀ t' ∈ r, ∀ d ∈ dq ++ [t], t' - 60 < d := by
        intro t' ht' d hd
        rcases List.mem_append.mp hd with hd | hd
        · exact h1 t' (List.mem_cons_of_mem t ht') d hd
        · have hdt : d = t := List.mem_singleton.mp hd
          rw [hdt]
          exact h2 t' (List.mem_cons_of_mem t ht') t (List.mem_cons_self t r)
      have h2' : ∀ a ∈ r, ∀ b ∈ r, a - 60 < b := fun a ha b hb =>
        h2 a (List.mem_cons_of_mem t ha) b (List.mem_cons_of_mem t hb)
      have hrec := ih (dq ++ [t]) h1' h2'
      rw [hrun, hstep]
      simp only [List.count_cons_self, hrec, List.length_append, List.length_cons,
        List.length_nil]
      omega
    · rw [if_neg hlt] at hstep
      have h1' : ∀ t' ∈ r, ∀ d ∈ dq, t' - 60 < d := fun t' ht' d hd =>
        h1 t' (List.mem_cons_of_mem t ht') d hd
      have h2' : ∀ a ∈ r, ∀ b ∈ r, a - 60 < b := fun a ha b hb =>
        h2 a (List.mem_cons_of_mem t ha) b (List.mem_cons_of_mem t hb)
      have hrec := ih dq h1' h2'
      rw [hrun, hstep]
      have hfalse : (false :: runCalls per_min dq r).count true = (runCalls per_min dq r).count true := by
        simp [List.count_cons]
      simp only [hfalse, hrec, List.length_cons]
      omega

/-! ## Claim C2 -/

/-- Claim C2, evaluated at the failing input: an item whose `confidence` is
present but not parsable as a number makes `normalize_item` raise
(`float("high")` raises `ValueError` with no surrounding `try`), so the
whole normalization pass aborts instead of recovering with the 0.0 default
— contradicting the claim (and the dead defensive `try/except` around the
later re-coercion at src/api/utils.py lines 121-124, which guards a value
that is already a float). -/
theorem c2_unparsable_confidence_aborts :
    normalize_item [("title", JVal.str "A"), ("confidence", JVal.str "high")] = none
    ∧ normalize_and_filter_items
        [[("title", JVal.str "A"), ("confidence", JVal.str "high")]] 1 = none :=
  ⟨rfl, rfl⟩

/-! ## Claim C3 -/

/-- Claim C3, counterexample: the claim's purge rule ("discard all recorded
timestamps older than now − window") differs from the code at the window
boundary.  With capacity 1, window 60 and one timestamp recorded at 0, a
call at time 60 finds that timestamp exactly `window` old: the code purges
it (`<= cutoff`) and admits the call, while the claim's strict rule retains
it and rejects the call. -/
theorem c3_counterexample :
    allow 1 60 [0] 60 = ((true, 0), [60])
    ∧ allowClaimStrict 1 60 [0] 60 = ((false, 0), [0])
    ∧ (((true, 0), [60]) : (Bool × ℕ) × List ℤ) ≠ (((false, 0), [0]) : (Bool × ℕ) × List ℤ) := by
  refine ⟨by decide, by decide, by decide⟩

/-- Claim C3 as amended: each call discards all recorded timestamps that are
at least `window` old (at or before `now − window`), then admits and records
when strictly below capacity, returning `(true, N − newCount)`, else
`(false, 0)`; with capacity 3, three calls in one window are admitted with
remaining 2, 1, 0, a fourth immediate call is rejected with remaining 0, and
a call after the window has passed is admitted again. -/
theorem c3_sliding_window_behavior :
    (∀ (per_min : ℕ) (dq : List ℤ) (now : ℤ), dq.Pairwise (fun a b => a ≤ b) →
      allow per_min 60 dq now =
        (let purged := dq.filter (fun ts => decide (now - 60 < ts))
         if purged.length < per_min then ((true, per_min - (purged.length + 1)), purged ++ [now])
         else ((false, 0), purged)))
    ∧ allow 3 60 [] 0 = ((true, 2), [0])
    ∧ allow 3 60 [0] 0 = ((true, 1), [0, 0])
    ∧ allow 3 60 [0, 0] 0 = ((true, 0), [0, 0, 0])
    ∧ allow 3 60 [0, 0, 0] 0 = ((false, 0), [0, 0, 0])
    ∧ allow 3 60 [0, 0, 0] 61 = ((true, 2), [61]) := by
  refine ⟨?_, by decide, by decide, by decide, by decide, by decide⟩
  intro per_min dq now h
  simp only [allow, dropWhile_le_eq_filter dq (now - 60) h]

/-- Witness for the amended claim C3 at a concrete in-window state. -/
theorem c3_witness : allow 3 60 [0] 5 = ((true, 1), [0, 5]) :=
  (c3_sliding_window_behavior.1 3 [0] 5 (by decide)).trans (by decide)

/-! ## Claim C9 -/

/-- Claim C9: when N callers each issue one `allow()` call against a limiter
of capacity K with N > K, all within one window, exactly K calls are
admitted and N − K rejected, under every interleaving.  Because the whole
purge-check-append sequence runs inside `with self.lock`
(src/api/rate_limiter.py lines 25-35), any interleaving is equivalent to
some sequential order of the callers' clock readings, which the list `ts`
ranges over; the in-window hypothesis says each pair of readings is less
than one window apart. -/
theorem c9_capacity_bound (per_min : ℕ) (ts : List ℤ)
    (hw : ∀ a ∈ ts, ∀ b ∈ ts, a - 60 < b) (hN : per_min < ts.length) :
    (runCalls per_min [] ts).count true = per_min
    ∧ (runCalls per_min [] ts).count false = ts.length - per_min := by
  have hc := runCalls_count per_min ts [] (by intro t _ d hd; cases hd) hw
  simp only [List.length_nil, Nat.sub_zero] at hc
  have hmin : min ts.length per_min = per_min := min_eq_right (le_of_lt hN)
  rw [hmin] at hc
  have hl := runCalls_length per_min ts []
  have hsum := count_true_add_count_false (runCalls per_min [] ts)
  constructor
  · exact hc
  · omega

/-- Witness for claim C9: three simultaneous callers against capacity 2. -/
theorem c9_witness :
    (runCalls 2 [] [0, 1, 2]).count true = 2
    ∧ (runCalls 2 [] [0, 1, 2]).count false = 1 :=
  c9_capacity_bound 2 [0, 1, 2] (by decide) (by decide)

/-! ## Claim C1 -/

/-- Claim C1, counterexample: the extraction-failure path of `call_openai`
(src/api/index.py lines 233-236) has no "no matches"/bare-URL recovery at
all.  A raw text consisting only of a "no matching results found" phrase
(and likewise a bare URL) makes the caller raise `HTTPException(502, "Model
did not return valid JSON")` — a fatal decoding error, not a successful
response with zero records as the claim requires. -/
theorem c1_counterexample :
    hasSubstr (String.toList "見つかりませんでした") noMatchText.toList = true
    ∧ resolve_items (fun _ => none) noMatchText =
        Except.error (502, "Model did not return valid JSON")
    ∧ resolve_items (fun _ => none) urlOnlyText =
        Except.error (502, "Model did not return valid JSON")
    ∧ (Except.error (502, "Model did not return valid JSON") : Except (ℕ × String) JVal)
        ≠ Except.ok (JVal.arr []) :=
  ⟨by decide, rfl, rfl, fun h => Except.noConfusion h⟩

/-- Claim C1 as amended: for every input text on which JSON extraction
fails, the system surfaces the fatal decoding error (HTTP 502, "Model did
not return valid JSON") to its caller unconditionally — regardless of any
"no matches" phrase or bare URL in the raw text. -/
theorem c1_extraction_failure_errors (decode : String → Option JVal) (text : String)
    (h : extract_json_from_text decode text = none) :
    resolve_items decode text = Except.error (502, "Model did not return valid JSON") := by
  simp [resolve_items, h]

/-- Witness for the amended claim C1 at a concrete undecodable text. -/
theorem c1_witness :
    resolve_items (fun _ => none) "no results." =
      Except.error (502, "Model did not return valid JSON") :=
  c1_extraction_failure_errors (fun _ => none) "no results." rfl

/-! ## Claim C5 -/

/-- Claim C5: while the balanced-span scan is inside a double-quoted string,
every character other than a quote or backslash — brace and bracket
characters included — leaves the state unchanged (stack untouched, still in
the string) and cannot terminate the span; an escaped character (the one
right after a backslash), a quote included, only clears the escape flag and
does not end the string.  Consequently the returned span ends at the first
genuinely matching top-level closer: concretely, a string value containing a
literal closing brace does not truncate the span, with or without a
preceding escaped quote, and trailing text is not included. -/
theorem c5_scanner_string_handling :
    (∀ (s : ScanSt) (c : Char), s.inStr = true → s.esc = false → c ≠ dquote → c ≠ bslash →
      stepC s c = (s, false))
    ∧ (∀ (s : ScanSt) (c : Char), s.inStr = true → s.esc = true →
      stepC s c = ({ s with esc := false }, false))
    ∧ findSpan (String.toList "pre \x7b\"a\": \"\x7d\"\x7d tail") =
        some (String.toList "\x7b\"a\": \"\x7d\"\x7d")
    ∧ findSpan (String.toList "\x7b\"k\": \"a\\\"\x7db\"\x7d xx") =
        some (String.toList "\x7b\"k\": \"a\\\"\x7db\"\x7d") := by
  refine ⟨?_, ?_, by decide, by decide⟩
  · intro s c h1 h2 h3 h4
    simp [stepC, h1, h2, h3, h4]
  · intro s c h1 h2
    simp [stepC, h1, h2]

/-- Witness for claim C5: a closing brace met inside a string with the
escape flag clear is inert, and an escaped quote keeps the string open. -/
theorem c5_witness :
    stepC ⟨[rbrace], true, false⟩ rbrace = (⟨[rbrace], true, false⟩, false)
    ∧ stepC ⟨[rbrace], true, true⟩ dquote = (⟨[rbrace], true, false⟩, false) :=
  ⟨c5_scanner_string_handling.1 ⟨[rbrace], true, false⟩ rbrace rfl rfl (by decide) (by decide),
   c5_scanner_string_handling.2.1 ⟨[rbrace], true, true⟩ dquote rfl rfl⟩

/-! ## Claim C8 -/

/-- Claim C8: a fenced code block whose inner content fails to decode as
JSON is not fatal: control falls through to the balanced-span scan over the
full text, and when that span decodes, its decoded value is returned. -/
theorem c8_fence_failure_falls_through (decode : String → Option JVal) (t : String)
    (c span : List Char) (v : JVal)
    (hf : findFence t.toList = some c) (hfd : decode (String.mk c) = none)
    (hs : findSpan t.toList = some span) (hsd : decode (String.mk span) = some v) :
    extract_json_from_text decode t = some v := by
  by_cases ht : t = ""
  · rw [ht] at hf
    rw [show findFence (("" : String).toList) = none from rfl] at hf
    exact Option.noConfusion hf
  · simp only [String.toList] at hf hs
    simp [extract_json_from_text, ht, hf, hfd, hs, hsd]

/-- Witness for claim C8 at a concrete fenced-garbage-then-array text. -/
theorem c8_witness : extract_json_from_text dec8 t8 = some (JVal.arr [JVal.num 1]) :=
  c8_fence_failure_falls_through dec8 t8 (String.toList "nope") (String.toList "[1]")
    (JVal.arr [JVal.num 1]) rfl rfl rfl rfl

/-! ## Normalizer helper lemmas -/

/-- The normalizer succeeds exactly when the per-item pass does, and its
output is the filtered truncation with the confidence fallback applied. -/
theorem nafi_eq_some (items : List Item) (k : ℕ) (out : List Record) :
    normalize_and_filter_items items k = some out ↔
    ∃ pre, normalize_all items = some pre
      ∧ out = (keptAfterFilter pre k).map confFallback := by
  unfold normalize_and_filter_items
  cases hn : normalize_all items with
  | none => simp
  | some pre => simp [eq_comm]

/-- A successful per-item pass produces one record per raw item. -/
theorem normalize_all_length :
    ∀ (items : List Item) (pre : List Record),
      normalize_all items = some pre → pre.length = items.length := by
  intro items
  induction items with
  | nil =>
    intro pre h
    injection h with h2
    rw [← h2]
    rfl
  | cons a l ih =>
    intro pre h
    unfold normalize_all at h
    cases ha : normalize_item a with
    | none => rw [ha] at h; exact Option.noConfusion h
    | some r =>
      rw [ha] at h
      cases hl : normalize_all l with
      | none => rw [hl] at h; exact Option.noConfusion h
      | some rs =>
        rw [hl] at h
        injection h with h2
        rw [← h2]
        simp [ih rs hl]

/-- A two-key alias chain agrees with taking the first hit over the list of
keys. -/
theorem alias2 (f : String → Option JVal) (a b : String) :
    (List.findSome? f [a, b]).getD (JVal.str "") = (f a <|> f b).getD (JVal.str "") := by
  cases hfa : f a <;> cases hfb : f b <;>
    simp [List.findSome?_cons, hfa, hfb]

/-- A three-key alias chain agrees with taking the first hit over the list
of keys. -/
theorem alias3 (f : String → Option JVal) (a b c : String) :
    (List.findSome? f [a, b, c]).getD (JVal.str "") =
      (f a <|> f b <|> f c).getD (JVal.str "") := by
  cases hfa : f a <;> cases hfb : f b <;> cases hfc : f c <;>
    simp [List.findSome?_cons, hfa, hfb, hfc]

/-! ## Claim C4 -/

/-- Claim C4: the normalizer truncates to the first `topK` normalized items
in input order before filtering; when the url filter is non-vacuous the
output is exactly the filtered truncation (with the confidence fallback),
when it would remove every truncated item the unfiltered truncated list is
kept instead, and in every case the output is a sublist of the (fallback
image of the) first-`topK` truncation — so items beyond position `topK` are
never substituted in and input order is preserved throughout. -/
theorem c4_truncate_then_filter (items : List Item) (k : ℕ) (pre out : List Record)
    (hpre : normalize_all items = some pre)
    (hout : normalize_and_filter_items items k = some out) :
    (((pre.take k).filter (fun r => truthy r.source_url)).isEmpty = false →
      out = ((pre.take k).filter (fun r => truthy r.source_url)).map confFallback)
    ∧ (((pre.take k).filter (fun r => truthy r.source_url)).isEmpty = true →
      out = (pre.take k).map confFallback)
    ∧ out.Sublist ((pre.take k).map confFallback) := by
  rcases (nafi_eq_some items k out).mp hout with ⟨pre2, hp2, hform⟩
  rw [hpre] at hp2
  injection hp2 with hp2
  rw [← hp2] at hform
  simp only [keptAfterFilter] at hform
  refine ⟨?_, ?_, ?_⟩
  · intro hne
    rw [hform]
    simp [hne]
  · intro he
    rw [hform]
    simp [he]
  · rw [hform]
    by_cases he : ((pre.take k).filter (fun r => truthy r.source_url)).isEmpty
    · simp [he]
    · simp only [he, if_false, Bool.false_eq_true]
      exact (List.filter_sublist _).map confFallback

/-- Witness for claim C4: the spec's litmus scenario — `topK = 2` over five
raw items where items 1 and 2 lack `source_url` and items 3 to 5 have it. -/
theorem c4_witness :
    (((pre5.take 2).filter (fun r => truthy r.source_url)).isEmpty = false →
      out5 = ((pre5.take 2).filter (fun r => truthy r.source_url)).map confFallback)
    ∧ (((pre5.take 2).filter (fun r => truthy r.source_url)).isEmpty = true →
      out5 = (pre5.take 2).map confFallback)
    ∧ out5.Sublist ((pre5.take 2).map confFallback) :=
  c4_truncate_then_filter items5 2 pre5 out5 rfl rfl

/-! ## Claim C6 -/

/-- Claim C6, counterexample: nothing in the normalizer clamps confidence to
at most 1.  A raw item with confidence 2.0 survives normalization with
confidence 2.0, violating the claimed `(0, 1]` bound. -/
theorem c6_counterexample :
    (normalize_and_filter_items
        [[("title", JVal.str "T"), ("source_url", JVal.str "u"),
          ("confidence", JVal.num 2)]] 1).map (fun l => l.map Record.confidence)
      = some [2]
    ∧ ¬((2 : ℚ) ≤ 1) :=
  ⟨rfl, by norm_num⟩

/-- Claim C6 as amended: every record returned by normalization has a
confidence different from exactly 0.0 — any surviving item whose coerced
confidence equals 0.0 has it replaced by 0.2 (no bound to `(0, 1]` is
enforced). -/
theorem c6_confidence_never_zero (items : List Item) (k : ℕ) (out : List Record)
    (h : normalize_and_filter_items items k = some out) :
    ∀ r ∈ out, r.confidence ≠ 0 := by
  rcases (nafi_eq_some items k out).mp h with ⟨pre, hpre, hform⟩
  intro r hr
  rw [hform] at hr
  rcases List.mem_map.mp hr with ⟨r0, hr0, hfb⟩
  rw [← hfb]
  unfold confFallback
  by_cases hz : r0.confidence = 0
  · rw [if_pos hz]
    show (0.2 : ℚ) ≠ 0
    norm_num
  · rw [if_neg hz]
    exact hz

/-- Witness for the amended claim C6 on a one-item input whose coerced
confidence is 0.0 (absent). -/
theorem c6_witness : c6wrec.confidence ≠ 0 :=
  c6_confidence_never_zero [[("title", JVal.str "W")]] 1
    ((normalize_and_filter_items [[("title", JVal.str "W")]] 1).getD []) rfl
    c6wrec (List.mem_cons_self c6wrec [])

/-! ## Claim C7 -/

/-- Claim C7, counterexample: aliasing is not "first present key".  For an
item whose `title` key is present with the empty string and whose `name` key
holds `"X"`, the code's `or` chain skips the present-but-falsy `title` and
records `"X"`, while the claim requires the first present key's value, the
empty string. -/
theorem c7_counterexample :
    (normalize_item [("title", JVal.str ""), ("name", JVal.str "X"),
        ("source_url", JVal.str "u")]).map Record.title = some (JVal.str "X")
    ∧ JVal.str "X" ≠ JVal.str "" := by
  refine ⟨rfl, ?_⟩
  intro h
  injection h with h2
  exact absurd h2 (by decide)

/-- Claim C7 as amended: key aliasing selects the first key whose value is
present and truthy (non-null, non-empty, non-zero): title from
first-truthy-of (title, name), summary from first-truthy-of (summary,
description), source_url from first-truthy-of (source_url, url, link); the
empty string is recorded exactly when no alias key has a truthy value. -/
theorem c7_alias_first_truthy (i : Item) (r : Record) (h : normalize_item i = some r) :
    r.title = firstTruthyAlias i ["title", "name"]
    ∧ r.summary = firstTruthyAlias i ["summary", "description"]
    ∧ r.source_url = firstTruthyAlias i ["source_url", "url", "link"] := by
  unfold normalize_item at h
  cases hg : grantTypeOf i with
  | none => rw [hg] at h; exact Option.noConfusion h
  | some g =>
    rw [hg] at h
    cases hc : confOf i with
    | none => rw [hc] at h; exact Option.noConfusion h
    | some c =>
      rw [hc] at h
      injection h with h2
      rw [← h2]
      unfold firstTruthyAlias
      exact ⟨(alias2 (fun k => truthyGet i k) "title" "name").symm,
        (alias2 (f := fun k => truthyGet i k) "summary" "description").symm,
        (alias3 (fun k => truthyGet i k) "source_url" "url" "link").symm⟩

/-- Witness for the amended claim C7 on an item carrying only `name`. -/
theorem c7_witness :
    c7wrec.title = firstTruthyAlias [("name", JVal.str "N")] ["title", "name"]
    ∧ c7wrec.summary = firstTruthyAlias [("name", JVal.str "N")] ["summary", "description"]
    ∧ c7wrec.source_url =
        firstTruthyAlias [("name", JVal.str "N")] ["source_url", "url", "link"] :=
  c7_alias_first_truthy [("name", JVal.str "N")] c7wrec rfl

/-! ## Claim C10 -/

/-- Claim C10: normalization never turns a non-empty input into an empty
output — truncating a non-empty normalized list to `topK ≥ 1` items is
non-empty, and the url filter falls back to the unfiltered truncated list
whenever it would remove every item. -/
theorem c10_nonempty_preserved (items : List Item) (k : ℕ) (out : List Record)
    (hne : items ≠ []) (hk : 1 ≤ k) (h : normalize_and_filter_items items k = some out) :
    out ≠ [] := by
  rcases (nafi_eq_some items k out).mp h with ⟨pre, hpre, hform⟩
  have hlen : pre.length = items.length := normalize_all_length items pre hpre
  have hpre_ne : pre ≠ [] := by
    intro hnil
    rw [hnil] at hlen
    cases items with
    | nil => exact hne rfl
    | cons a l => simp at hlen
  have htr : pre.take k ≠ [] := by
    cases pre with
    | nil => exact absurd rfl hpre_ne
    | cons p ps =>
      cases k with
      | zero => omega
      | succ k2 => simp [List.take]
  rw [hform]
  simp only [keptAfterFilter]
  by_cases he : ((pre.take k).filter (fun r => truthy r.source_url)).isEmpty
  · simp only [he, if_true]
    rw [Ne, List.map_eq_nil_iff]
    exact htr
  · simp only [he, if_false, Bool.false_eq_true]
    rw [Ne, List.map_eq_nil_iff]
    intro hnil
    apply he
    rw [hnil]
    rfl

/-- Witness for claim C10 on a one-item input. -/
theorem c10_witness :
    (normalize_and_filter_items [[("title", JVal.str "Z")]] 1).getD [] ≠ [] :=
  c10_nonempty_preserved [[("title", JVal.str "Z")]] 1
    ((normalize_and_filter_items [[("title", JVal.str "Z")]] 1).getD [])
    (by simp) (le_refl 1) rfl
